import Mathlib

/-!
# Verification of the drawing-canvas engine (src/DrawingCanvas.jsx)

Shallow embedding of the stroke-capture, camera and replay-rendering
engine of the drawing application.  JavaScript numbers are modelled as
exact rationals; where IEEE-754 special values matter (the unguarded
division by zero in the pinch handler) a dedicated `JSVal` model of the
same lines is used.  Canvas 2D context calls are modelled as an explicit
command trace together with a small semantics that turns a trace into
the list of painted segments: per the HTML canvas specification, a
`stroke()` call paints the whole current path with the line width in
force at the time of the call (assignments to `lineWidth` during path
construction do not vary the width along the path).  The semantics here
is deliberately permissive: zero-length segments are kept as paintable
dots (real canvases prune them, which renders strictly less).
-/

namespace DrawingApp

/-- Tool selector (the `tool` prop): brush or eraser. -/
inductive Tool where
  | brush
  | eraser
deriving DecidableEq, Repr

/-- A recorded stroke point (`{ ...pos, pressure }`).  The `pressure`
field is `none` when the input device reported no pressure. -/
structure Point where
  x : ℚ
  y : ℚ
  pressure : Option ℚ
deriving DecidableEq, Repr

/-- A committed stroke (`{ tool, color, lineWidth, points }`,
lines 191-196 of DrawingCanvas.jsx). -/
structure Stroke where
  tool : Tool
  color : String
  lineWidth : ℚ
  points : List Point
deriving DecidableEq, Repr

/-- A pointer event, restricted to the fields the handlers read. -/
structure PEvent where
  clientX : ℚ
  clientY : ℚ
  pressure : Option ℚ
  pointerType : String
  isPrimary : Bool
deriving DecidableEq, Repr

/-- One touch contact (client coordinates). -/
structure Touch where
  clientX : ℚ
  clientY : ℚ
deriving DecidableEq, Repr

/-- External inputs of the component: the `color`, `lineWidth` and
`tool` props, plus the canvas bounding-rectangle origin returned by
`getBoundingClientRect()`. -/
structure Env where
  color : String
  lineWidth : ℚ
  tool : Tool
  rectLeft : ℚ
  rectTop : ℚ
deriving DecidableEq, Repr

/-- Component state: the refs and state hooks of `DrawingCanvas`
(lines 7-21).  The React pattern of a state hook mirrored by a ref kept
in sync by an effect is collapsed into one authoritative copy. -/
structure CState where
  isDrawing : Bool
  currentStroke : List Point
  history : List Stroke
  redoStack : List Stroke
  scale : ℚ
  offsetX : ℚ
  offsetY : ℚ
  pinchStartDist : Option ℚ
  pinchStartScale : ℚ
  pinchStartCenter : Option (ℚ × ℚ)
deriving DecidableEq, Repr

/-- Initial component state (initial values of lines 7-21). -/
def init : CState where
  isDrawing := false
  currentStroke := []
  history := []
  redoStack := []
  scale := 1
  offsetX := 0
  offsetY := 0
  pinchStartDist := none
  pinchStartScale := 1
  pinchStartCenter := none

/-- Compositing modes the component selects. -/
inductive CompMode where
  | sourceOver
  | destinationOut
deriving DecidableEq, Repr

/-- Canvas-context commands issued by the component (the subset of the
2D context API it uses). -/
inductive CanvasOp where
  | setCompositeOp (m : CompMode)
  | setStrokeStyle (c : String)
  | setLineWidth (w : ℚ)
  | setLineCap
  | setLineJoin
  | beginPath
  | moveTo (x y : ℚ)
  | lineTo (x y : ℚ)
  | strokePath
  | closePath
  | clearAll
deriving DecidableEq, Repr

/-- A painted segment: the result of stroking one pair of consecutive
path points, carrying the compositing mode, stroke style and line width
in force at the time of the `stroke()` call. -/
structure Seg where
  mode : CompMode
  color : String
  width : ℚ
  x1 : ℚ
  y1 : ℚ
  x2 : ℚ
  y2 : ℚ
deriving DecidableEq, Repr

/-- Canvas 2D context state for the trace semantics: current attribute
values, the current path (completed subpaths plus the subpath under
construction) and the segments painted onto the raster so far. -/
structure Ctx where
  lineWidth : ℚ
  strokeStyle : String
  comp : CompMode
  subpaths : List (List (ℚ × ℚ))
  cur : List (ℚ × ℚ)
  out : List Seg
deriving DecidableEq, Repr

/-- Segments painted by a `stroke()` call: every pair of consecutive
points of every subpath of the current path, all with the current line
width (the HTML canvas applies one width to the whole path at stroke
time).  Zero-length segments are kept. -/
def strokeSegs (c : Ctx) : List Seg :=
  ((c.subpaths ++ [c.cur]).map fun sp =>
    (sp.zip sp.tail).map fun pq =>
      Seg.mk c.comp c.strokeStyle c.lineWidth pq.1.1 pq.1.2 pq.2.1 pq.2.2).flatten

/-- One step of the canvas-trace semantics.  `closePath` is modelled as
a no-op: in every trace of this component it is followed by `beginPath`
before the next `stroke()`, so its closing line is never painted.
`clearAll` models `clearRect` over the whole viewport: the raster
(the list of painted segments) becomes empty. -/
def stepCtx (c : Ctx) : CanvasOp → Ctx
  | .setCompositeOp m => { c with comp := m }
  | .setStrokeStyle s => { c with strokeStyle := s }
  | .setLineWidth w => { c with lineWidth := w }
  | .setLineCap => c
  | .setLineJoin => c
  | .beginPath => { c with subpaths := [], cur := [] }
  | .moveTo x y =>
      { c with
        subpaths := if c.cur.isEmpty then c.subpaths else c.subpaths ++ [c.cur]
        cur := [(x, y)] }
  | .lineTo x y => { c with cur := c.cur ++ [(x, y)] }
  | .strokePath => { c with out := c.out ++ strokeSegs c }
  | .closePath => c
  | .clearAll => { c with out := [] }

/-- A fresh 2D context (default attribute values). -/
def ctx0 : Ctx where
  lineWidth := 1
  strokeStyle := "#000000"
  comp := .sourceOver
  subpaths := []
  cur := []
  out := []

/-- Run a command trace from a fresh context and return the painted
segments. -/
def render (ops : List CanvasOp) : List Seg :=
  (ops.foldl stepCtx ctx0).out

/-- JavaScript truthiness default applied to a pressure value:
`p.pressure || 1` in `redraw` (line 39), and equivalently
`e.pressure && e.pressure !== 0 ? e.pressure : 1` in the pointer
handlers (lines 147 and 171): a missing or zero pressure becomes 1. -/
def pressureVal (p : Option ℚ) : ℚ :=
  match p with
  | none => 1
  | some q => if q = 0 then 1 else q

/-- Commands issued by `redraw()` for the points of one stroke
(lines 38-43): the line width is reassigned before every point, the
first point is a `moveTo`, later points are `lineTo`. -/
def pointOps (w : ℚ) (first : Bool) (p : Point) : List CanvasOp :=
  [.setLineWidth (w * pressureVal p.pressure),
   if first then .moveTo p.x p.y else .lineTo p.x p.y]

/-- Commands issued by `redraw()` for one stroke of the history
(lines 29-46). -/
def strokeOps (s : Stroke) : List CanvasOp :=
  [.setCompositeOp (if s.tool = .eraser then .destinationOut else .sourceOver),
   .setStrokeStyle s.color,
   .setLineWidth s.lineWidth,
   .setLineCap,
   .setLineJoin,
   .beginPath] ++
  (match s.points with
   | [] => []
   | p :: rest => pointOps s.lineWidth true p ++ (rest.map (pointOps s.lineWidth false)).flatten) ++
  [.strokePath, .closePath]

/-- Model of `redraw()` (lines 23-47): clear the raster, then replay
every committed stroke of the history, oldest first. -/
def redrawOps (history : List Stroke) : List CanvasOp :=
  CanvasOp.clearAll :: (history.map strokeOps).flatten

/-- Model of `screenToCanvas` (lines 74-79): client point to
drawing-space under the current camera. -/
def screenToCanvas (env : Env) (s : CState) (cx cy : ℚ) : ℚ × ℚ :=
  ((cx - env.rectLeft - s.offsetX) / s.scale,
   (cy - env.rectTop - s.offsetY) / s.scale)

/-- Model of `getDist` (lines 88-92): `Math.hypot` of the coordinate
deltas, i.e. the Euclidean distance between the two touches.
`Math.hypot` is the real square root of the sum of squares; on exact
rationals it is modelled by `Rat.sqrt`, which agrees with it whenever
the true distance is rational — every concrete input in this file is
chosen so. -/
def getDist (t1 t2 : Touch) : ℚ :=
  Rat.sqrt ((t2.clientX - t1.clientX) ^ 2 + (t2.clientY - t1.clientY) ^ 2)

/-- Model of `getCenter` (lines 94-97): the midpoint of two touches. -/
def getCenter (t1 t2 : Touch) : ℚ × ℚ :=
  ((t1.clientX + t2.clientX) / 2, (t1.clientY + t2.clientY) / 2)

/-- Model of `handleTouchStart` (lines 99-106): with exactly two
contacts, record the pinch references (distance, scale, center);
otherwise do nothing.  No drawing field is touched. -/
def handleTouchStart (s : CState) (touches : List Touch) : CState :=
  match touches with
  | [a, b] =>
      { s with
        pinchStartDist := some (getDist a b)
        pinchStartScale := s.scale
        pinchStartCenter := some (getCenter a b) }
  | _ => s

/-- Model of `handleTouchMove` (lines 108-128): with exactly two
contacts, set the scale to `pinchStartScale * (newDist / pinchStartDist)`
clamped into `[0.5, 4]`, pan the offset by the midpoint delta, and
refresh the midpoint reference (the distance and scale references are
not refreshed).  `Option.getD` stands for JavaScript's null coercion;
all theorems about this handler assume the pinch references are set,
and the division-by-zero case is treated in the `JSVal` model below
because rational division by zero does not match IEEE arithmetic. -/
def handleTouchMove (s : CState) (touches : List Touch) : CState :=
  match touches with
  | [a, b] =>
      let newDist := getDist a b
      let newCenter := getCenter a b
      let sc := s.pinchStartScale * (newDist / s.pinchStartDist.getD 0)
      let c0 := s.pinchStartCenter.getD (0, 0)
      { s with
        scale := min (max sc (1/2)) 4
        offsetX := s.offsetX + (newCenter.1 - c0.1)
        offsetY := s.offsetY + (newCenter.2 - c0.2)
        pinchStartCenter := some newCenter }
  | _ => s

/-- Model of `handleTouchEnd` (lines 130-132). -/
def handleTouchEnd (s : CState) : CState :=
  { s with pinchStartDist := none }

/-- Model of `startDrawing` (lines 142-165).  A non-primary touch
pointer returns before any state change or context call.  Otherwise the
position is converted to drawing-space, a dot is painted (`moveTo` then
`lineTo` to the same point, then `stroke`), the current stroke becomes
that single point and the drawing flag is set.  Returns the new state
and the canvas commands issued. -/
def startDrawing (env : Env) (s : CState) (e : PEvent) : CState × List CanvasOp :=
  if e.pointerType = "touch" ∧ e.isPrimary = false then (s, [])
  else
    let pos := screenToCanvas env s e.clientX e.clientY
    let pressure := pressureVal e.pressure
    let toolOps : List CanvasOp :=
      if env.tool = .eraser then [.setCompositeOp .destinationOut]
      else [.setCompositeOp .sourceOver, .setStrokeStyle env.color]
    ({ s with
        currentStroke := [Point.mk pos.1 pos.2 (some pressure)]
        isDrawing := true },
     toolOps ++
       [.setLineWidth (env.lineWidth * pressure),
        .beginPath, .moveTo pos.1 pos.2, .lineTo pos.1 pos.2, .strokePath])

/-- Model of `draw` (lines 167-184): ignored unless the drawing flag is
set; otherwise extend the live path by one segment and append the point
to the current stroke. -/
def draw (env : Env) (s : CState) (e : PEvent) : CState × List CanvasOp :=
  if s.isDrawing = false then (s, [])
  else
    let pos := screenToCanvas env s e.clientX e.clientY
    let pressure := pressureVal e.pressure
    let toolOps : List CanvasOp :=
      if env.tool = .eraser then [.setCompositeOp .destinationOut]
      else [.setCompositeOp .sourceOver, .setStrokeStyle env.color]
    ({ s with
        currentStroke := s.currentStroke ++ [Point.mk pos.1 pos.2 (some pressure)] },
     toolOps ++ [.setLineWidth (env.lineWidth * pressure), .lineTo pos.1 pos.2, .strokePath])

/-- Model of `endDrawing` (lines 186-206): ignored unless the drawing
flag is set; otherwise commit the accumulated points as a stroke —
append it to the history, clear the redo stack, clear the current
stroke, drop the drawing flag.  The only context call is `closePath`. -/
def endDrawing (env : Env) (s : CState) : CState × List CanvasOp :=
  if s.isDrawing = false then (s, [])
  else
    let stroke : Stroke := Stroke.mk env.tool env.color env.lineWidth s.currentStroke
    ({ s with
        isDrawing := false
        history := s.history ++ [stroke]
        redoStack := []
        currentStroke := [] },
     [.closePath])

/-- Model of `undo` (lines 208-221): if the history is empty do
nothing; otherwise move its last stroke to the end of the redo stack. -/
def undo (s : CState) : CState :=
  match s.history.getLast? with
  | none => s
  | some last =>
      { s with
        history := s.history.dropLast
        redoStack := s.redoStack ++ [last] }

/-- Model of `redo` (lines 223-238): if the redo stack is empty do
nothing; otherwise move its last stroke back to the end of the
history. -/
def redo (s : CState) : CState :=
  match s.redoStack.getLast? with
  | none => s
  | some stroke =>
      { s with
        history := s.history ++ [stroke]
        redoStack := s.redoStack.dropLast }

/-- Model of `clearCanvas` (lines 240-246): empty both stacks. -/
def clearCanvas (s : CState) : CState :=
  { s with history := [], redoStack := [] }

/-- The combined stroke sequence of the two stacks: the committed
strokes followed by the undone strokes, most recently undone first. -/
def combined (s : CState) : List Stroke :=
  s.history ++ s.redoStack.reverse

/-- A user history action: an undo-button or redo-button press. -/
inductive HistOp where
  | undoOp
  | redoOp
deriving DecidableEq, Repr

/-- Apply a sequence of undo/redo button presses, oldest first. -/
def applyOps : List HistOp → CState → CState
  | [], s => s
  | .undoOp :: rest, s => applyOps rest (undo s)
  | .redoOp :: rest, s => applyOps rest (redo s)

/-!
## IEEE-754 model of the pinch scale computation

Rational division by zero yields 0, which misrepresents JavaScript:
there `newDist / pinchStartDist` with a zero denominator produces
`Infinity` or `NaN`.  The following model of lines 116-119 uses
JavaScript number semantics restricted to the operations those lines
perform (negative zero is not modelled; no operand here is a negative
zero). -/

/-- A JavaScript number: finite (exact rational), one of the two
infinities, or NaN. -/
inductive JSVal where
  | fin (q : ℚ)
  | posInf
  | negInf
  | nan
deriving DecidableEq, Repr

/-- JavaScript division.  A nonzero finite numerator over zero gives a
signed infinity, `0 / 0` gives NaN, NaN propagates. -/
def jsDiv : JSVal → JSVal → JSVal
  | .nan, _ => .nan
  | _, .nan => .nan
  | .fin a, .fin b =>
      if b = 0 then (if a = 0 then .nan else if 0 < a then .posInf else .negInf)
      else .fin (a / b)
  | .fin _, .posInf => .fin 0
  | .fin _, .negInf => .fin 0
  | .posInf, .fin b => if 0 ≤ b then .posInf else .negInf
  | .negInf, .fin b => if 0 ≤ b then .negInf else .posInf
  | .posInf, _ => .nan
  | .negInf, _ => .nan

/-- JavaScript multiplication.  Zero times an infinity gives NaN, NaN
propagates. -/
def jsMul : JSVal → JSVal → JSVal
  | .nan, _ => .nan
  | _, .nan => .nan
  | .fin a, .fin b => .fin (a * b)
  | .fin a, .posInf => if a = 0 then .nan else if 0 < a then .posInf else .negInf
  | .fin a, .negInf => if a = 0 then .nan else if 0 < a then .negInf else .posInf
  | .posInf, .fin b => if b = 0 then .nan else if 0 < b then .posInf else .negInf
  | .negInf, .fin b => if b = 0 then .nan else if 0 < b then .negInf else .posInf
  | .posInf, .posInf => .posInf
  | .posInf, .negInf => .negInf
  | .negInf, .posInf => .negInf
  | .negInf, .negInf => .posInf

/-- JavaScript `Math.max`: NaN if either argument is NaN. -/
def jsMax : JSVal → JSVal → JSVal
  | .nan, _ => .nan
  | _, .nan => .nan
  | .posInf, _ => .posInf
  | _, .posInf => .posInf
  | .negInf, y => y
  | x, .negInf => x
  | .fin a, .fin b => .fin (max a b)

/-- JavaScript `Math.min`: NaN if either argument is NaN. -/
def jsMin : JSVal → JSVal → JSVal
  | .nan, _ => .nan
  | _, .nan => .nan
  | .negInf, _ => .negInf
  | _, .negInf => .negInf
  | .posInf, y => y
  | x, .posInf => x
  | .fin a, .fin b => .fin (min a b)

/-- Lines 116-119 of `handleTouchMove` on JavaScript numbers: the value
stored into `scaleRef.current`, namely
`Math.min(Math.max(pinchStartScale * (newDist / pinchStartDist), 0.5), 4)`. -/
def pinchScaleUpdate (startScale newDist startDist : JSVal) : JSVal :=
  jsMin (jsMax (jsMul startScale (jsDiv newDist startDist)) (.fin (1/2))) (.fin 4)

/-!
## Concrete inputs used by counterexamples and witnesses
-/

/-- Default props: black brush of base width 7 (the application's
defaults), canvas rectangle at the client origin. -/
def env0 : Env where
  color := "#000000"
  lineWidth := 7
  tool := Tool.brush
  rectLeft := 0
  rectTop := 0

/-- A primary mouse pointer-down/move position at client (10, 10). -/
def eDown : PEvent := PEvent.mk 10 10 (some 1) "mouse" true

/-- A primary mouse move position at client (11, 10). -/
def eMove : PEvent := PEvent.mk 11 10 (some 1) "mouse" true

/-- A primary mouse pointer-down at client (5, 5). -/
def eDot : PEvent := PEvent.mk 5 5 (some 1) "mouse" true

/-- A non-primary touch pointer-down. -/
def eSecondTouch : PEvent := PEvent.mk 20 20 (some 1) "touch" false

/-- Second-finger contact pair while drawing (distance 5). -/
def tA : Touch := Touch.mk 0 0

/-- Second-finger contact pair while drawing (distance 5). -/
def tB : Touch := Touch.mk 3 4

/-- Pinch-start contact: center (100, 101), distance 1. -/
def pS1 : Touch := Touch.mk 100 (201/2)

/-- Pinch-start contact: center (100, 101), distance 1. -/
def pS2 : Touch := Touch.mk 100 (203/2)

/-- Pinch-move contact: center (100, 101), distance 2. -/
def pM1 : Touch := Touch.mk 100 100

/-- Pinch-move contact: center (100, 101), distance 2. -/
def pM2 : Touch := Touch.mk 100 102

/-- Origin contact, for unit and ratio pinches. -/
def u0 : Touch := Touch.mk 0 0

/-- Contact at distance 1 from `u0`. -/
def u1 : Touch := Touch.mk 1 0

/-- Contact at distance 1000 from `u0`. -/
def uFar : Touch := Touch.mk 600 800

/-- Contact at distance 10000 from `u0`. -/
def uVeryFar : Touch := Touch.mk 10000 0

/-- The stroke committed by a pointer-down at (10, 10) followed by a
pointer-up, under `env0`. -/
def strokeA : Stroke := Stroke.mk Tool.brush "#000000" 7 [Point.mk 10 10 (some 1)]

/-- A three-point stroke of base width 10 whose last point has pressure
one half. -/
def strokeP : Stroke :=
  Stroke.mk Tool.brush "#000000" 10
    [Point.mk 0 0 (some 1), Point.mk 1 0 (some 1), Point.mk 2 0 (some (1/2))]

/-- A committed single-point stroke (a tap) at (5, 5). -/
def strokeDot : Stroke := Stroke.mk Tool.brush "#000000" 7 [Point.mk 5 5 (some 1)]

/-!
## Helper lemmas
-/

/-- Square root of a squared nonnegative rational. -/
theorem sqrt_of_sq (q : ℚ) (h : 0 ≤ q) : Rat.sqrt (q * q) = q := by
  rw [Rat.sqrt_eq]; exact abs_of_nonneg h

/-- The distance of the second-finger contact pair is 5. -/
theorem getDist_tA_tB : getDist tA tB = 5 := by
  have h : getDist tA tB = Rat.sqrt 25 := by norm_num [getDist, tA, tB]
  rw [h, show (25 : ℚ) = 5 * 5 by norm_num, sqrt_of_sq]
  norm_num

/-!
## Claim C1: second simultaneous contact during drawing
-/

/-- C1 counterexample.  The claim states that when a second simultaneous
contact appears while a stroke is being drawn, the in-progress stroke is
abandoned uncommitted (never appended to `done`) and subsequent
single-contact events are ignored for drawing.  In the code this is
false: after a pointer-down at (10, 10) and a two-contact touch-start,
a single-contact pointer move still extends the current stroke, and the
pointer-up commits the stroke into the history. -/
theorem claim1_counterexample :
    (endDrawing env0 (handleTouchStart (startDrawing env0 init eDown).1 [tA, tB])).1.history
      = [strokeA] ∧
    (draw env0 (handleTouchStart (startDrawing env0 init eDown).1 [tA, tB]) eMove).1.currentStroke
      = [Point.mk 10 10 (some 1), Point.mk 11 10 (some 1)] := by
  norm_num [startDrawing, handleTouchStart, endDrawing, draw, screenToCanvas, pressureVal,
    env0, eDown, eMove, tA, tB, init, strokeA]

/-- C1 as amended: the appearance of a second simultaneous contact only
records the pinch references; it does not change any drawing field — the
drawing flag stays set, the current stroke is kept, and a subsequent
pointer-up commits that stroke, appending it to the history. -/
theorem claim1_amended (s : CState) (a b : Touch) (env : Env)
    (h : s.isDrawing = true) :
    (handleTouchStart s [a, b]).isDrawing = true ∧
    (handleTouchStart s [a, b]).currentStroke = s.currentStroke ∧
    (handleTouchStart s [a, b]).history = s.history ∧
    (endDrawing env (handleTouchStart s [a, b])).1.history
      = s.history ++ [Stroke.mk env.tool env.color env.lineWidth s.currentStroke] := by
  simp [handleTouchStart, endDrawing, h]

/-- C1 amended, witness: the amended statement at the concrete drawing
state reached by a pointer-down at (10, 10). -/
theorem claim1_amended_witness :
    (handleTouchStart (startDrawing env0 init eDown).1 [tA, tB]).isDrawing = true ∧
    (handleTouchStart (startDrawing env0 init eDown).1 [tA, tB]).currentStroke
      = (startDrawing env0 init eDown).1.currentStroke ∧
    (handleTouchStart (startDrawing env0 init eDown).1 [tA, tB]).history
      = (startDrawing env0 init eDown).1.history ∧
    (endDrawing env0 (handleTouchStart (startDrawing env0 init eDown).1 [tA, tB])).1.history
      = (startDrawing env0 init eDown).1.history ++
        [Stroke.mk env0.tool env0.color env0.lineWidth
          (startDrawing env0 init eDown).1.currentStroke] :=
  claim1_amended _ tA tB env0 (by norm_num [startDrawing, env0, eDown, init])

/-!
## Claims C2, C3, C9: history-store laws
-/

/-- Undoing with a non-empty history and then redoing restores the
whole component state. -/
theorem redo_undo (s : CState) (h : s.history ≠ []) : redo (undo s) = s := by
  rcases List.eq_nil_or_concat s.history with h0 | ⟨l, a, hl⟩
  · exact absurd h0 h
  · rw [List.concat_eq_append] at hl
    have hu : undo s = { s with history := l, redoStack := s.redoStack ++ [a] } := by
      simp only [undo, hl, List.getLast?_concat, List.dropLast_concat]
    have hr : redo { s with history := l, redoStack := s.redoStack ++ [a] }
        = { s with history := l ++ [a], redoStack := s.redoStack } := by
      simp only [redo, List.getLast?_concat, List.dropLast_concat]
    rw [hu, hr, ← hl]

/-- The history shrinks by one on a successful undo. -/
theorem undo_history_concat (s : CState) (l : List Stroke) (a : Stroke)
    (hl : s.history = l ++ [a]) : (undo s).history = l := by
  simp only [undo, hl, List.getLast?_concat, List.dropLast_concat]

/-- Undoing N times and then redoing N times restores the whole state,
provided the history holds at least N strokes. -/
theorem redo_iter_undo_iter (N : ℕ) :
    ∀ s : CState, N ≤ s.history.length → redo^[N] (undo^[N] s) = s := by
  induction N with
  | zero => intro s _; rfl
  | succ n ih =>
      intro s hN
      rcases List.eq_nil_or_concat s.history with h0 | ⟨l, a, hl⟩
      · rw [h0] at hN; simp at hN
      · rw [List.concat_eq_append] at hl
        have hne : s.history ≠ [] := by rw [hl]; simp
        have hlen : (undo s).history.length = l.length := by
          rw [undo_history_concat s l a hl]
        have hbound : n ≤ (undo s).history.length := by
          rw [hlen]
          have : s.history.length = l.length + 1 := by rw [hl]; simp
          omega
        have h1 : undo^[n + 1] s = undo^[n] (undo s) :=
          Function.iterate_succ_apply undo n s
        have h2 : ∀ y : CState, redo^[n + 1] y = redo (redo^[n] y) := fun y =>
          Function.iterate_succ_apply' redo n y
        rw [h1, h2, ih (undo s) hbound, redo_undo s hne]

/-- C2 counterexample.  The claim quantifies over every state reachable
by K commits followed by at most K undos; with one commit followed by
one undo (a reachable state with empty `done` and non-empty `undone`),
`undo(); redo()` does not restore `done`: `undo` is a no-op and `redo`
moves the undone stroke back, so `done` goes from `[]` to `[strokeA]`. -/
theorem claim2_counterexample :
    undo ((endDrawing env0 (startDrawing env0 init eDown).1).1)
      = CState.mk false [] [] [strokeA] 1 0 0 none 1 none ∧
    (redo (undo (CState.mk false [] [] [strokeA] 1 0 0 none 1 none))).history
      ≠ (CState.mk false [] [] [strokeA] 1 0 0 none 1 none).history := by
  constructor
  · norm_num [startDrawing, endDrawing, undo, screenToCanvas, pressureVal,
      env0, eDown, init, strokeA]
  · simp [undo, redo]

/-- C2 as amended: restricted to states whose `done` is non-empty,
`undo(); redo()` restores the state, and for every N not exceeding the
current length of `done`, undoing N times then redoing N times is the
identity on the whole state (hence on `done` and `undone`). -/
theorem claim2_amended (s : CState) (N : ℕ) :
    (s.history ≠ [] → redo (undo s) = s) ∧
    (N ≤ s.history.length → redo^[N] (undo^[N] s) = s) :=
  ⟨fun h => redo_undo s h, fun h => redo_iter_undo_iter N s h⟩

/-- C2 amended, witness: one committed stroke, N = 1. -/
theorem claim2_amended_witness :
    redo (undo (CState.mk false [] [strokeA] [] 1 0 0 none 1 none))
      = CState.mk false [] [strokeA] [] 1 0 0 none 1 none ∧
    redo^[1] (undo^[1] (CState.mk false [] [strokeA] [] 1 0 0 none 1 none))
      = CState.mk false [] [strokeA] [] 1 0 0 none 1 none := by
  have h := claim2_amended (CState.mk false [] [strokeA] [] 1 0 0 none 1 none) 1
  exact ⟨h.1 (by simp), h.2 (by simp)⟩

/-- A single undo does not change the drawing flag. -/
theorem undo_isDrawing (s : CState) : (undo s).isDrawing = s.isDrawing := by
  cases h : s.history.getLast? <;> simp [undo, h]

/-- Iterated undo does not change the drawing flag. -/
theorem undo_iter_isDrawing (n : ℕ) (s : CState) :
    (undo^[n] s).isDrawing = s.isDrawing := by
  induction n generalizing s with
  | zero => rfl
  | succ m ih => rw [Function.iterate_succ_apply, ih, undo_isDrawing]

/-- C3: committing a stroke (a pointer-up while drawing) appends it to
the end of the history and leaves the redo stack empty; in particular a
commit after any number of undo presses empties the redo stack. -/
theorem claim3_commit_appends_and_clears (env : Env) (s : CState) (n : ℕ)
    (h : s.isDrawing = true) :
    (endDrawing env s).1.history
      = s.history ++ [Stroke.mk env.tool env.color env.lineWidth s.currentStroke] ∧
    (endDrawing env s).1.redoStack = [] ∧
    (endDrawing env (undo^[n] s)).1.redoStack = [] := by
  have hn : (undo^[n] s).isDrawing = true := by rw [undo_iter_isDrawing, h]
  simp [endDrawing, h, hn]

/-- C3, witness: the drawing state after a pointer-down at (10, 10),
with n = 1. -/
theorem claim3_witness :
    (endDrawing env0 (startDrawing env0 init eDown).1).1.history
      = (startDrawing env0 init eDown).1.history ++
        [Stroke.mk env0.tool env0.color env0.lineWidth
          (startDrawing env0 init eDown).1.currentStroke] ∧
    (endDrawing env0 (startDrawing env0 init eDown).1).1.redoStack = [] ∧
    (endDrawing env0 (undo^[1] (startDrawing env0 init eDown).1)).1.redoStack = [] :=
  claim3_commit_appends_and_clears env0 _ 1 (by norm_num [startDrawing, env0, eDown, init])

/-- Undo preserves the combined stroke sequence. -/
theorem combined_undo (s : CState) : combined (undo s) = combined s := by
  rcases List.eq_nil_or_concat s.history with h0 | ⟨l, a, hl⟩
  · simp [undo, h0, combined]
  · simp only [combined, undo, hl, List.getLast?_concat, List.dropLast_concat]
    simp [List.append_assoc]

/-- Redo preserves the combined stroke sequence. -/
theorem combined_redo (s : CState) : combined (redo s) = combined s := by
  rcases List.eq_nil_or_concat s.redoStack with h0 | ⟨l, a, hl⟩
  · simp [redo, h0, combined]
  · simp only [combined, redo, hl, List.getLast?_concat, List.dropLast_concat]
    simp [List.append_assoc]

/-- Any interleaving of undo/redo presses preserves the combined stroke
sequence. -/
theorem combined_applyOps (ops : List HistOp) :
    ∀ s : CState, combined (applyOps ops s) = combined s := by
  induction ops with
  | nil => intro s; rfl
  | cons op rest ih =>
      intro s
      cases op
      · rw [show applyOps (HistOp.undoOp :: rest) s = applyOps rest (undo s) from rfl,
          ih (undo s), combined_undo]
      · rw [show applyOps (HistOp.redoOp :: rest) s = applyOps rest (redo s) from rfl,
          ih (redo s), combined_redo]

/-- C9: undo and redo preserve the combined sequence
`done ++ reverse undone` — no stroke is created, destroyed or reordered —
and consequently `|done| + |undone|` is invariant under any interleaving
of undo and redo presses. -/
theorem claim9_combined_invariant (s : CState) (ops : List HistOp) :
    combined (undo s) = combined s ∧
    combined (redo s) = combined s ∧
    combined (applyOps ops s) = combined s ∧
    (applyOps ops s).history.length + (applyOps ops s).redoStack.length
      = s.history.length + s.redoStack.length := by
  refine ⟨combined_undo s, combined_redo s, combined_applyOps ops s, ?_⟩
  have h := congrArg List.length (combined_applyOps ops s)
  simpa [combined] using h

/-!
## Claim C10: non-primary touch pointer-down
-/

/-- C10: a pointer-down whose pointer type is "touch" and whose primary
flag is false is a complete no-op: the state (including the drawing
flag and the current stroke) is unchanged and no canvas command is
issued. -/
theorem claim10_nonprimary_touch_noop (env : Env) (s : CState) (e : PEvent)
    (h1 : e.pointerType = "touch") (h2 : e.isPrimary = false) :
    startDrawing env s e = (s, []) := by
  simp [startDrawing, h1, h2]

/-- C10, witness: a concrete non-primary touch pointer-down on the
initial state. -/
theorem claim10_witness : startDrawing env0 init eSecondTouch = (init, []) :=
  claim10_nonprimary_touch_noop env0 init eSecondTouch rfl rfl

/-!
## Claims C4, C5: pinch camera update
-/

/-- The pinch-start contact pair is at distance 1. -/
theorem getDist_pS : getDist pS1 pS2 = 1 := by
  have h : getDist pS1 pS2 = Rat.sqrt 1 := by norm_num [getDist, pS1, pS2]
  rw [h, show (1 : ℚ) = 1 * 1 by norm_num, sqrt_of_sq]
  all_goals norm_num

/-- The pinch-move contact pair is at distance 2. -/
theorem getDist_pM : getDist pM1 pM2 = 2 := by
  have h : getDist pM1 pM2 = Rat.sqrt 4 := by norm_num [getDist, pM1, pM2]
  rw [h, show (4 : ℚ) = 2 * 2 by norm_num, sqrt_of_sq]
  norm_num

/-- Unit-distance contact pair. -/
theorem getDist_u0_u1 : getDist u0 u1 = 1 := by
  have h : getDist u0 u1 = Rat.sqrt 1 := by norm_num [getDist, u0, u1]
  rw [h, show (1 : ℚ) = 1 * 1 by norm_num, sqrt_of_sq]
  all_goals norm_num

/-- Contact pair at distance 1000. -/
theorem getDist_u0_uFar : getDist u0 uFar = 1000 := by
  have h : getDist u0 uFar = Rat.sqrt 1000000 := by norm_num [getDist, u0, uFar]
  rw [h, show (1000000 : ℚ) = 1000 * 1000 by norm_num, sqrt_of_sq]
  norm_num

/-- Contact pair at distance 10000. -/
theorem getDist_u0_uVeryFar : getDist u0 uVeryFar = 10000 := by
  have h : getDist u0 uVeryFar = Rat.sqrt 100000000 := by norm_num [getDist, u0, uVeryFar]
  rw [h, show (100000000 : ℚ) = 10000 * 10000 by norm_num, sqrt_of_sq]
  norm_num

/-- The pinch-start contact pair has midpoint (100, 101). -/
theorem getCenter_pS : getCenter pS1 pS2 = (100, 101) := by
  norm_num [getCenter, pS1, pS2]

/-- The pinch-move contact pair has midpoint (100, 101) as well. -/
theorem getCenter_pM : getCenter pM1 pM2 = (100, 101) := by
  norm_num [getCenter, pM1, pM2]

/-- Touch-start at the `pS` pair from the initial state records pinch
references distance 1, scale 1, center (100, 101). -/
theorem touchStart_pS :
    handleTouchStart init [pS1, pS2]
      = CState.mk false [] [] [] 1 0 0 (some 1) 1 (some (100, 101)) := by
  norm_num [handleTouchStart, init, getDist_pS, getCenter_pS]

/-- Touch-move at the `pM` pair (same midpoint, distance 2) doubles the
scale and leaves the offset unchanged. -/
theorem touchMove_pM :
    handleTouchMove (CState.mk false [] [] [] 1 0 0 (some 1) 1 (some (100, 101))) [pM1, pM2]
      = CState.mk false [] [] [] 2 0 0 (some 1) 1 (some (100, 101)) := by
  norm_num [handleTouchMove, getDist_pM, getCenter_pM]

/-- C4 counterexample.  A pinch whose midpoint (100, 101) does not move
while the distance doubles produces a new scale 2, strictly inside the
clamp range, with the offset unchanged — and the drawing-space point
under the midpoint is (100, 101) before but (50, 101/2) after: the code
never recomputes the offset from the new scale, so zoom is not about
the gesture center. -/
theorem claim4_counterexample :
    getCenter pM1 pM2 = getCenter pS1 pS2 ∧
    (handleTouchMove (handleTouchStart init [pS1, pS2]) [pM1, pM2]).scale = 2 ∧
    (1/2 : ℚ) < 2 ∧ (2 : ℚ) < 4 ∧
    (handleTouchMove (handleTouchStart init [pS1, pS2]) [pM1, pM2]).offsetX
      = (handleTouchStart init [pS1, pS2]).offsetX ∧
    (handleTouchMove (handleTouchStart init [pS1, pS2]) [pM1, pM2]).offsetY
      = (handleTouchStart init [pS1, pS2]).offsetY ∧
    screenToCanvas env0 (handleTouchMove (handleTouchStart init [pS1, pS2]) [pM1, pM2]) 100 101
      ≠ screenToCanvas env0 (handleTouchStart init [pS1, pS2]) 100 101 := by
  rw [touchStart_pS, touchMove_pM, getCenter_pS, getCenter_pM]
  norm_num [screenToCanvas, env0, Prod.ext_iff]

/-- The clamped scale value is always positive. -/
theorem clamp_pos (x : ℚ) : 0 < min (max x (1/2)) 4 := by
  have h1 : (1/2 : ℚ) ≤ max x (1/2) := le_max_right _ _
  have h2 : (0 : ℚ) < 1/2 := by norm_num
  exact lt_min (lt_of_lt_of_le h2 h1) (by norm_num)

/-- The scale stored by a two-contact touch-move, with the pinch
distance reference set. -/
theorem touchMove_scale (s : CState) (a b : Touch) (d0 : ℚ)
    (hd : s.pinchStartDist = some d0) :
    (handleTouchMove s [a, b]).scale
      = min (max (s.pinchStartScale * (getDist a b / d0)) (1/2)) 4 := by
  simp [handleTouchMove, hd]

/-- The offsets stored by a two-contact touch-move whose midpoint
equals the recorded pinch center. -/
theorem touchMove_offset_fixed (s : CState) (a b : Touch)
    (hc : s.pinchStartCenter = some (getCenter a b)) :
    (handleTouchMove s [a, b]).offsetX = s.offsetX ∧
    (handleTouchMove s [a, b]).offsetY = s.offsetY := by
  constructor <;> simp [handleTouchMove, hc]

/-- C4 as amended: when the midpoint does not move, the offset is left
unchanged (the code pans by the midpoint delta only and never recomputes
the offset from the new scale), so the drawing-space point under the
midpoint is not preserved in general: it is multiplied componentwise by
the ratio of old scale to new scale. -/
theorem claim4_amended (env : Env) (s : CState) (a b : Touch) (d0 : ℚ)
    (hd : s.pinchStartDist = some d0)
    (hc : s.pinchStartCenter = some (getCenter a b))
    (hs : s.scale ≠ 0) :
    (handleTouchMove s [a, b]).offsetX = s.offsetX ∧
    (handleTouchMove s [a, b]).offsetY = s.offsetY ∧
    screenToCanvas env (handleTouchMove s [a, b]) (getCenter a b).1 (getCenter a b).2
      = (s.scale / (handleTouchMove s [a, b]).scale
           * (screenToCanvas env s (getCenter a b).1 (getCenter a b).2).1,
         s.scale / (handleTouchMove s [a, b]).scale
           * (screenToCanvas env s (getCenter a b).1 (getCenter a b).2).2) := by
  obtain ⟨hox, hoy⟩ := touchMove_offset_fixed s a b hc
  have hpos : 0 < (handleTouchMove s [a, b]).scale := by
    rw [touchMove_scale s a b d0 hd]; exact clamp_pos _
  refine ⟨hox, hoy, ?_⟩
  unfold screenToCanvas
  rw [hox, hoy, Prod.ext_iff]
  have hne : (handleTouchMove s [a, b]).scale ≠ 0 := ne_of_gt hpos
  constructor <;> (field_simp; ring)

/-- C4 amended, witness: the concrete stationary-midpoint pinch. -/
theorem claim4_amended_witness :
    (handleTouchMove (handleTouchStart init [pS1, pS2]) [pM1, pM2]).offsetX
      = (handleTouchStart init [pS1, pS2]).offsetX ∧
    (handleTouchMove (handleTouchStart init [pS1, pS2]) [pM1, pM2]).offsetY
      = (handleTouchStart init [pS1, pS2]).offsetY ∧
    screenToCanvas env0 (handleTouchMove (handleTouchStart init [pS1, pS2]) [pM1, pM2])
        (getCenter pM1 pM2).1 (getCenter pM1 pM2).2
      = ((handleTouchStart init [pS1, pS2]).scale
           / (handleTouchMove (handleTouchStart init [pS1, pS2]) [pM1, pM2]).scale
           * (screenToCanvas env0 (handleTouchStart init [pS1, pS2])
               (getCenter pM1 pM2).1 (getCenter pM1 pM2).2).1,
         (handleTouchStart init [pS1, pS2]).scale
           / (handleTouchMove (handleTouchStart init [pS1, pS2]) [pM1, pM2]).scale
           * (screenToCanvas env0 (handleTouchStart init [pS1, pS2])
               (getCenter pM1 pM2).1 (getCenter pM1 pM2).2).2) :=
  claim4_amended env0 _ pM1 pM2 1
    (by rw [touchStart_pS])
    (by rw [touchStart_pS, getCenter_pM])
    (by rw [touchStart_pS]; norm_num)

/-- C5: with the pinch references set and a positive recorded start
distance, the scale stored by a pinch update is exactly
`clamp(pinchStartScale * (newDist / pinchStartDist), 0.5, 4)`; in
particular, when the pinch-start scale lies in the clamp range, a
distance ratio of 1000 stores exactly the maximum scale 4 and a ratio
of 1/10000 stores exactly the minimum scale 1/2 — never an unbounded
or rejected value. -/
theorem claim5_scale_clamped (s : CState) (a b : Touch) (d0 : ℚ)
    (hd : s.pinchStartDist = some d0) (hpos : 0 < d0) :
    (handleTouchMove s [a, b]).scale
      = min (max (s.pinchStartScale * (getDist a b / d0)) (1/2)) 4 ∧
    (getDist a b = 1000 * d0 → 1/2 ≤ s.pinchStartScale → s.pinchStartScale ≤ 4 →
      (handleTouchMove s [a, b]).scale = 4) ∧
    (getDist a b = d0 / 10000 → 1/2 ≤ s.pinchStartScale → s.pinchStartScale ≤ 4 →
      (handleTouchMove s [a, b]).scale = 1/2) := by
  have hd0 : d0 ≠ 0 := ne_of_gt hpos
  have hbase := touchMove_scale s a b d0 hd
  refine ⟨hbase, ?_, ?_⟩
  · intro hr h1 h2
    rw [hbase, hr, show 1000 * d0 / d0 = 1000 by field_simp]
    have hge : (4 : ℚ) ≤ s.pinchStartScale * 1000 := by nlinarith
    have h12 : (1/2 : ℚ) ≤ s.pinchStartScale * 1000 := by linarith
    rw [max_eq_left h12, min_eq_right hge]
  · intro hr h1 h2
    have hq : d0 / 10000 / d0 = 1 / 10000 := by
      field_simp
      ring
    rw [hbase, hr, hq]
    have hle : s.pinchStartScale * (1 / 10000) ≤ 1/2 := by nlinarith
    rw [max_eq_right hle, min_eq_left (by norm_num : (1/2 : ℚ) ≤ 4)]

/-- C5, witness: from scale 1, a 1 → 1000 pinch stores scale 4, and a
10000 → 1 pinch stores scale 1/2. -/
theorem claim5_witness :
    (handleTouchMove (handleTouchStart init [u0, u1]) [u0, uFar]).scale = 4 ∧
    (handleTouchMove (handleTouchStart init [u0, uVeryFar]) [u0, u1]).scale = 1/2 := by
  constructor
  · exact (claim5_scale_clamped (handleTouchStart init [u0, u1]) u0 uFar 1
      (by norm_num [handleTouchStart, init, getDist_u0_u1])
      (by norm_num)).2.1
      (by rw [getDist_u0_uFar]; norm_num)
      (by norm_num [handleTouchStart, init])
      (by norm_num [handleTouchStart, init])
  · exact (claim5_scale_clamped (handleTouchStart init [u0, uVeryFar]) u0 u1 10000
      (by norm_num [handleTouchStart, init, getDist_u0_uVeryFar])
      (by norm_num)).2.2
      (by rw [getDist_u0_u1]; norm_num)
      (by norm_num [handleTouchStart, init])
      (by norm_num [handleTouchStart, init])

/-!
## Claim C6: pinch distance divide-by-zero
-/

/-- C6: the scale update of lines 116-119 is not guarded against a zero
recorded pinch-start distance.  With both contacts at an identical
point at pinch start (recorded distance 0) and stored scale 1: if the
contacts are still coincident on the move (new distance 0) the
computation is `1 * (0 / 0) = NaN`, and `Math.max`/`Math.min` propagate
it, so NaN — a non-finite value — is stored as the camera scale; if
the contacts have separated (new distance 3) the computation is
`1 * (3 / 0) = Infinity`, clamped to 4, so the scale jumps to the
maximum instead of being left unchanged. -/
theorem claim6_unguarded_zero_distance :
    pinchScaleUpdate (.fin 1) (.fin 0) (.fin 0) = JSVal.nan ∧
    pinchScaleUpdate (.fin 1) (.fin 3) (.fin 0) = JSVal.fin 4 := by
  decide

/-!
## Claims C7, C8: replay rendering
-/

/-- Brush and eraser are distinct tools. -/
theorem brush_ne_eraser : Tool.brush ≠ Tool.eraser := by decide

/-- C7: `redraw()` builds one path per stroke, assigning
`ctx.lineWidth = stroke.lineWidth * (p.pressure || 1)` before every
point, but calls `ctx.stroke()` once after the loop, so the whole
stroke is painted with the width computed from the LAST point's
pressure.  For the three-point stroke of base width 10 with pressures
1, 1, 1/2, both segments render at width 5 — including the segment
ending at the second point, which the claim requires to render at
width 10.  The missing-or-zero-pressure default to 1 does hold. -/
theorem claim7_last_pressure_wins :
    render (redrawOps [strokeP])
      = [Seg.mk .sourceOver "#000000" 5 0 0 1 0,
         Seg.mk .sourceOver "#000000" 5 1 0 2 0] ∧
    pressureVal (some 0) = 1 ∧ pressureVal none = 1 := by
  refine ⟨?_, by norm_num [pressureVal], by norm_num [pressureVal]⟩
  norm_num [render, redrawOps, strokeOps, pointOps, strokeSegs, stepCtx, ctx0,
    strokeP, pressureVal, brush_ne_eraser]

/-- C8: replaying a committed single-point stroke paints nothing — the
replay loop issues only a `moveTo`, and stroking a one-point subpath
produces no segment — whereas the incremental paint at pointer-down
(`moveTo` then `lineTo` to the same point, then `stroke`) does paint a
zero-length dot segment at that point.  The replayed raster is empty at
the tap location, contradicting the claimed visible dot. -/
theorem claim8_tap_lost_on_replay :
    render (redrawOps [strokeDot]) = [] ∧
    render (startDrawing env0 init eDot).2
      = [Seg.mk .sourceOver "#000000" 7 5 5 5 5] := by
  constructor
  · norm_num [render, redrawOps, strokeOps, pointOps, strokeSegs, stepCtx, ctx0,
      strokeDot, pressureVal, brush_ne_eraser]
  · norm_num [render, startDrawing, screenToCanvas, pressureVal, stepCtx,
      strokeSegs, ctx0, env0, eDot, init, brush_ne_eraser]

end DrawingApp
